import Mathlib

/-!
Verification development for the Blockchain-Simulation repository.

The Python source is shallowly embedded: every numeric value the source
stores in a float is modelled as an exact rational (ℚ), every string as
String, every Python list as List, every Python dict keyed by string as an
association list with unique keys.  Mutating methods become pure functions
from the old state (and arguments) to the result and the new state.
-/

/-- Constant DIFFICULTY_ADJUSTMENT_BLOCKS from config.py. -/
def DIFFICULTY_ADJUSTMENT_BLOCKS : ℕ := 2016

/-- TRANSACTION_CONFIG['fee_rate'] from config.py (0.01). -/
def feeRateConfig : ℚ := 1/100

/-- TRANSACTION_CONFIG['min_fee'] from config.py (0.001). -/
def minFeeConfig : ℚ := 1/1000

/-- TRANSACTION_CONFIG['max_fee'] from config.py (0.1). -/
def maxFeeConfig : ℚ := 1/10

/-- Block record from models.py.  The derived sha256 hex digest is kept as an
opaque-to-us String field computed at construction (the source computes it in
post-init and never mutates it); the mining engine only ever tests it for
emptiness and copies it. -/
structure Block where
  block_id : String
  timestamp : ℚ
  time_since_last : ℚ
  transaction_count : ℕ
  size : ℕ
  transactions : List String
  miner_reward : ℚ
  previous_hash : String
  miner_id : String
  difficulty : ℚ
  hash : String
deriving DecidableEq

/-- Transaction record from models.py (hash field omitted: no claim reads it). -/
structure Transaction where
  tx_id : String
  sender : String
  recipient : String
  amount : ℚ
  fee : ℚ
  timestamp : ℚ
  status : String
  priority : String
  network_congestion : ℚ
deriving DecidableEq

/-- Wallet record from models.py. -/
structure Wallet where
  wallet_id : String
  balance : ℚ
  transactions_sent : ℕ
  transactions_received : ℕ
  total_sent : ℚ
  total_received : ℚ
  total_fees : ℚ
deriving DecidableEq

/-- Wallet.add_balance from models.py: credit amount, bump received counters. -/
def Wallet.add_balance (w : Wallet) (amount : ℚ) : Wallet :=
  { w with
    balance := w.balance + amount
    total_received := w.total_received + amount
    transactions_received := w.transactions_received + 1 }

/-- Wallet.subtract_balance from models.py: if balance covers amount + fee,
deduct it, bump the sent counters and return True; otherwise return False and
leave the wallet as it was. -/
def Wallet.subtract_balance (w : Wallet) (amount : ℚ) (fee : ℚ) : Bool × Wallet :=
  let total_deduction := amount + fee
  if total_deduction ≤ w.balance then
    (true,
      { w with
        balance := w.balance - total_deduction
        total_sent := w.total_sent + amount
        total_fees := w.total_fees + fee
        transactions_sent := w.transactions_sent + 1 })
  else
    (false, w)

/-- NetworkStats record from models.py. -/
structure NetworkStats where
  total_blocks_propagated : ℕ
  total_transactions_propagated : ℕ
  total_network_data : ℕ
  total_io_requests : ℕ
  average_propagation_time : ℚ
  network_latency : ℚ
  packet_loss_rate : ℚ
deriving DecidableEq

/-- NetworkStats.update_propagation_stats from models.py: bump the block,
data-volume and I/O counters and fold the new propagation time into the
running incremental mean. -/
def NetworkStats.update_propagation_stats (st : NetworkStats) (block_size : ℕ)
    (propagation_time : ℚ) : NetworkStats :=
  let blocks' := st.total_blocks_propagated + 1
  let avg' :=
    if blocks' = 1 then propagation_time
    else (st.average_propagation_time * (blocks' - 1 : ℕ) + propagation_time) / (blocks' : ℚ)
  { st with
    total_blocks_propagated := blocks'
    total_network_data := st.total_network_data + block_size
    total_io_requests := st.total_io_requests + 1
    average_propagation_time := avg' }

/-- MiningStats record from models.py; blocks_per_miner is the dict of
per-miner block counts, embedded as an association list over unique keys. -/
structure MiningStats where
  total_blocks_mined : ℕ
  total_mining_time : ℚ
  average_mining_time : ℚ
  current_difficulty : ℚ
  total_hashrate : ℚ
  blocks_per_miner : List (String × ℕ)
deriving DecidableEq

/-- Increment the count stored under a key of the blocks_per_miner dict,
inserting the key at count 0 first when it is absent (models.py lines 254-256). -/
def bumpMinerCount (l : List (String × ℕ)) (k : String) : List (String × ℕ) :=
  if l.any (fun p => p.1 = k) then
    l.map (fun p => if p.1 = k then (p.1, p.2 + 1) else p)
  else
    l ++ [(k, 1)]

/-- MiningStats.update_mining_stats from models.py. -/
def MiningStats.update_mining_stats (st : MiningStats) (miner_id : String)
    (mining_time : ℚ) (difficulty : ℚ) : MiningStats :=
  let total_blocks' := st.total_blocks_mined + 1
  let total_time' := st.total_mining_time + mining_time
  { st with
    total_blocks_mined := total_blocks'
    total_mining_time := total_time'
    current_difficulty := difficulty
    blocks_per_miner := bumpMinerCount st.blocks_per_miner miner_id
    average_mining_time := total_time' / (total_blocks' : ℚ) }

/-- The slice of SimulationConfig (config.py) that the mining engine,
termination check and fee model read. -/
structure SimulationConfig where
  nodes : ℕ
  neighbors : ℕ
  miners : ℕ
  hashrate : ℚ
  blocktime : ℚ
  difficulty : ℚ
  reward : ℚ
  halving : Option ℕ
  wallets : ℕ
  transactions : ℕ
  blocksize : ℕ
  blocks : Option ℕ
deriving DecidableEq

/-- The state of FeeCalculator (wallet.py): its constructor loads the three
TRANSACTION_CONFIG constants and starts at 50% block utilization; only
block_utilization is ever updated afterwards (clamped into [0,1] by
update_network_conditions), so the calculator state is captured by that one
field together with the configured constants. -/
structure FeeCalculator where
  base_fee_rate : ℚ
  min_fee : ℚ
  max_fee : ℚ
  block_utilization : ℚ
deriving DecidableEq

/-- FeeCalculator.__init__ from wallet.py. -/
def FeeCalculator.init (block_utilization : ℚ) : FeeCalculator :=
  { base_fee_rate := feeRateConfig
    min_fee := minFeeConfig
    max_fee := maxFeeConfig
    block_utilization := block_utilization }

/-- The priority multiplier dictionary in FeeCalculator.calculate_fee,
including the .get default of 1.0 for unknown priority strings. -/
def priorityMult (priority : String) : ℚ :=
  if priority = "low" then 1/2
  else if priority = "normal" then 1
  else if priority = "high" then 2
  else if priority = "urgent" then 5
  else 1

/-- FeeCalculator.calculate_fee from wallet.py: base fee times priority,
congestion and utilization multipliers, clamped into [min_fee, max_fee]. -/
def FeeCalculator.calculate_fee (fc : FeeCalculator) (amount : ℚ)
    (priority : String) (network_congestion : ℚ) : ℚ :=
  let base_fee := amount * fc.base_fee_rate
  let priority_mult := priorityMult priority
  let congestion_mult := 1 + network_congestion * 2
  let utilization_factor := 1 + fc.block_utilization * (1/2)
  let fee := base_fee * priority_mult * congestion_mult * utilization_factor
  max fc.min_fee (min fee fc.max_fee)

/-- Modelled from the spec (section 4.2 Fee Model), for the refinement half of
claim C5: fee(amount, priority, congestion) = clamp(amount x base_rate x
priorityMultiplier(priority) x (1 + 2 x congestion) x (1 + 0.5 x
blockUtilization), min_fee, max_fee). -/
def feeSpecFormula (amount pm congestion utilization : ℚ) : ℚ :=
  max minFeeConfig
    (min (amount * feeRateConfig * pm * (1 + 2 * congestion) * (1 + (1/2) * utilization))
      maxFeeConfig)

/-- Look up a wallet in the WalletManager.wallets dict (keys unique). -/
def lookupWallet (ws : List (String × Wallet)) (wid : String) : Option Wallet :=
  (ws.find? (fun p => p.1 = wid)).map Prod.snd

/-- Apply an update to the wallet stored under a dict key (dict-style
in-place mutation of the unique entry for that key). -/
def updateWallet (ws : List (String × Wallet)) (wid : String)
    (f : Wallet → Wallet) : List (String × Wallet) :=
  ws.map (fun p => if p.1 = wid then (p.1, f p.2) else p)

/-- WalletManager.process_confirmed_transaction from wallet.py: if the
recipient wallet exists, credit tx.amount to it via Wallet.add_balance; in
every case mark the transaction confirmed.  Returns the new wallet dict and
the updated transaction. -/
def process_confirmed_transaction (ws : List (String × Wallet))
    (tx : Transaction) : List (String × Wallet) × Transaction :=
  let ws' :=
    if (lookupWallet ws tx.recipient).isSome then
      updateWallet ws tx.recipient (fun w => w.add_balance tx.amount)
    else ws
  (ws', { tx with status := "confirmed" })

/-- A node of the peer graph (network.py BlockchainNode): its stored-block
id set (as a duplicate-free list) and the ids of its neighbor nodes (the
source keeps object references; ids identify them uniquely). -/
structure BlockchainNode where
  node_id : String
  stored_blocks : List String
  neighbors : List String
deriving DecidableEq

/-- BlockchainNode._broadcast_block from network.py: for each neighbor the
shared NetworkStats is updated with (block.size, 0.1); nothing is delivered
to the neighbor itself (the _receive_block path is never invoked). -/
def broadcast_block_stats (node : BlockchainNode) (stats : NetworkStats)
    (b : Block) : NetworkStats :=
  node.neighbors.foldl
    (fun st _ => st.update_propagation_stats b.size (1/10)) stats

/-- BlockchainNode.store_block from network.py: if the block id is new, add
it to the stored set and run _broadcast_block (which only updates the shared
propagation statistics), returning True; otherwise leave everything untouched
and return False.  Result: (returned bool, node after, shared stats after). -/
def BlockchainNode.store_block (node : BlockchainNode) (stats : NetworkStats)
    (b : Block) : Bool × BlockchainNode × NetworkStats :=
  if b.block_id ∈ node.stored_blocks then
    (false, node, stats)
  else
    (true,
      { node with stored_blocks := b.block_id :: node.stored_blocks },
      broadcast_block_stats node stats b)

/-- The network as NetworkManager holds it: the node list plus the single
shared NetworkStats instance. -/
structure NetworkState where
  nodes : List BlockchainNode
  network_stats : NetworkStats
deriving DecidableEq

/-- NetworkManager.broadcast_block from network.py, with the randomly chosen
origin made explicit: the origin node's store_block is invoked and its result
written back into the network (no other node is touched by the source). -/
def NetworkState.broadcast_block (net : NetworkState) (origin : String)
    (b : Block) : NetworkState :=
  match net.nodes.find? (fun n => n.node_id = origin) with
  | none => net
  | some node =>
    let r := node.store_block net.network_stats b
    { nodes := net.nodes.map (fun n => if n.node_id = origin then r.2.1 else n)
      network_stats := r.2.2 }

/-- Miner record from mining.py (the per-miner statistics submit_block
mutates; hashrate variance and run flag included for completeness). -/
structure Miner where
  miner_id : String
  hashrate : ℚ
  actual_hashrate : ℚ
  blocks_mined : ℕ
  total_mining_time : ℚ
  running : Bool
deriving DecidableEq

/-- Miner.update_stats from mining.py. -/
def Miner.update_stats (m : Miner) (mining_time : ℚ) : Miner :=
  { m with
    blocks_mined := m.blocks_mined + 1
    total_mining_time := m.total_mining_time + mining_time }

/-- Apply an update to the first list entry the predicate accepts, leaving
the rest alone (MiningManager._get_miner_by_id returns the first match and
the caller mutates that one object). -/
def updateFirst (p : Miner → Bool) (f : Miner → Miner) :
    List Miner → List Miner
  | [] => []
  | m :: ms => if p m then f m :: ms else m :: updateFirst p f ms

/-- The mutable state of MiningManager (mining.py). -/
structure MiningState where
  config : SimulationConfig
  mining_stats : MiningStats
  miners : List Miner
  blocks : List Block
  current_difficulty : ℚ
  block_reward : ℚ
  halving_blocks : Option ℕ
  simulated_time : ℚ
  last_block_time : ℚ
  last_block_hash : String
  transaction_pool : List Transaction
  block_counter : ℕ
deriving DecidableEq

/-- MiningManager._validate_block from mining.py: block_id and hash must be
non-empty (Python truthiness of the strings), the block_id must not already
occur in the chain, and the transaction count must not exceed the configured
blocksize. -/
def MiningState.validate_block (s : MiningState) (b : Block) : Bool :=
  if b.block_id = "" ∨ b.hash = "" then false
  else if s.blocks.any (fun c => c.block_id = b.block_id) then false
  else if s.config.blocksize < b.transaction_count then false
  else true

/-- Mean of a list of rationals (statistics.mean). -/
def listMean (l : List ℚ) : ℚ := l.sum / (l.length : ℚ)

/-- The new difficulty computed by MiningManager._adjust_difficulty given the
pre-adjustment difficulty d and the mean time_since_last over the adjustment
window: the raw ratio target/actual is clamped into [0.67, 1.5], applied
multiplicatively, and the result clamped into [0.1, 5.0] times the baseline
blocktime * miners * hashrate. -/
def adjustedDifficulty (cfg : SimulationConfig) (d actual_avg : ℚ) : ℚ :=
  let difficulty_change := max (67/100) (min (3/2) (cfg.blocktime / actual_avg))
  let base_difficulty := cfg.blocktime * (cfg.miners : ℚ) * cfg.hashrate
  let min_difficulty := base_difficulty * (1/10)
  let max_difficulty := base_difficulty * 5
  max min_difficulty (min max_difficulty (d * difficulty_change))

/-- MiningManager._adjust_difficulty from mining.py, acting on the state:
no-op below a full window, otherwise recompute current_difficulty from the
mean time_since_last of the most recent DIFFICULTY_ADJUSTMENT_BLOCKS blocks. -/
def MiningState.adjust_difficulty (s : MiningState) : MiningState :=
  if s.blocks.length < DIFFICULTY_ADJUSTMENT_BLOCKS then s
  else
    let recent := s.blocks.drop (s.blocks.length - DIFFICULTY_ADJUSTMENT_BLOCKS)
    let actual_avg := listMean (recent.map (fun b => b.time_since_last))
    { s with current_difficulty := adjustedDifficulty s.config s.current_difficulty actual_avg }

/-- MiningManager._halve_reward from mining.py. -/
def MiningState.halve_reward (s : MiningState) : MiningState :=
  { s with block_reward := s.block_reward / 2 }

/-- Lines 271-274 of mining.py submit_block: append the validated block to
the chain and refresh the last-block time and hash. -/
def MiningState.append_block (s : MiningState) (b : Block) : MiningState :=
  { s with
    blocks := s.blocks ++ [b]
    last_block_time := b.timestamp
    last_block_hash := b.hash }

/-- Lines 276-281 of mining.py submit_block: when the submitting miner id is
known, bump that miner's personal statistics and fold the block into the
global MiningStats; otherwise do nothing. -/
def MiningState.record_miner_stats (s : MiningState) (b : Block)
    (miner_id : String) : MiningState :=
  if (s.miners.find? (fun m => m.miner_id = miner_id)).isSome then
    { s with
      miners := updateFirst (fun m => m.miner_id = miner_id)
        (fun m => m.update_stats b.time_since_last) s.miners
      mining_stats := s.mining_stats.update_mining_stats miner_id
        b.time_since_last s.current_difficulty }
  else s

/-- Lines 283-285 of mining.py submit_block: run the difficulty adjustment
when the (new) chain length is a positive multiple of
DIFFICULTY_ADJUSTMENT_BLOCKS. -/
def MiningState.maybe_adjust_difficulty (s : MiningState) : MiningState :=
  if s.blocks.length % DIFFICULTY_ADJUSTMENT_BLOCKS = 0 ∧ 0 < s.blocks.length then
    s.adjust_difficulty
  else s

/-- Lines 287-289 of mining.py submit_block: halve the reward when halving is
configured (Python truthiness: neither None nor zero) and the (new) chain
length is a positive multiple of the halving interval. -/
def MiningState.maybe_halve_reward (s : MiningState) : MiningState :=
  match s.halving_blocks with
  | none => s
  | some h =>
    if h ≠ 0 ∧ s.blocks.length % h = 0 ∧ 0 < s.blocks.length then
      s.halve_reward
    else s

/-- MiningManager.submit_block from mining.py: validate; on failure return
False with the state untouched; on success append the block, update the
last-block metadata, record the miner statistics, run the periodic difficulty
adjustment and reward halving, and return True.  The registered block
callback touches no engine state. -/
def MiningState.submit_block (s : MiningState) (b : Block) (miner_id : String) :
    Bool × MiningState :=
  if ¬ s.validate_block b then
    (false, s)
  else
    (true, (((s.append_block b).record_miner_stats b miner_id).maybe_adjust_difficulty).maybe_halve_reward)

/-- The FIFO pop loop in MiningManager.get_transactions_for_block: pop the
head element n times (stopping early on an empty pool). -/
def popFIFO (n : ℕ) (pool : List Transaction) : List Transaction × List Transaction :=
  match n, pool with
  | 0, l => ([], l)
  | _ + 1, [] => ([], [])
  | n + 1, tx :: rest =>
    let r := popFIFO n rest
    (tx :: r.1, r.2)

/-- MiningManager.get_transactions_for_block from mining.py: dequeue up to
blocksize transactions from the head of the pool, in order.  Returns the
dequeued transactions and the state with the shrunk pool. -/
def MiningState.get_transactions_for_block (s : MiningState) :
    List Transaction × MiningState :=
  let max_tx := min s.config.blocksize s.transaction_pool.length
  let r := popFIFO max_tx s.transaction_pool
  (r.1, { s with transaction_pool := r.2 })

/-- MiningManager.add_transaction from mining.py: append to the pool tail. -/
def MiningState.add_transaction (s : MiningState) (tx : Transaction) : MiningState :=
  { s with transaction_pool := s.transaction_pool ++ [tx] }

/-- The simulator fields read by BlockchainSimulator._should_terminate:
workload configuration, block-count target, current pending-pool size and
number of mined blocks. -/
structure SimulatorState where
  wallets : ℕ
  transactions : ℕ
  blocks_target : Option ℕ
  pending_tx : ℕ
  blocks_mined : ℕ
deriving DecidableEq

/-- BlockchainSimulator._should_terminate from simulator.py: case 1 fires
when wallets > 0, the pool is empty, at least one block is mined and the
expected transaction total wallets * transactions is positive; case 2 fires
when a block target is configured (Python truthiness: not None and nonzero)
and the mined count has reached it. -/
def shouldTerminate (s : SimulatorState) : Bool :=
  if 0 < s.wallets ∧ s.pending_tx = 0 ∧ 0 < s.blocks_mined ∧
      0 < s.wallets * s.transactions then
    true
  else
    match s.blocks_target with
    | none => false
    | some b => if b ≠ 0 ∧ b ≤ s.blocks_mined then true else false

/-- The break decision of BlockchainSimulator._simulation_loop: the loop has
terminated on its own within the first n + 1 iterations exactly when the
termination check succeeded at one of the states seen at iterations 0..n
(f is the per-iteration evolution of the observed simulator state). -/
def loopTerminatesWithin (f : SimulatorState → SimulatorState)
    (s : SimulatorState) (n : ℕ) : Bool :=
  (List.range (n + 1)).any (fun i => shouldTerminate (f^[i] s))

/-- The difficulty values the mining engine can hold in states reachable by
repeated block submissions: initially config.difficulty (an arbitrary
configured input), then the image of each completed difficulty adjustment
(submit_block changes current_difficulty only through adjust_difficulty,
whose window mean is nonzero in any adjustment the Python source completes
without raising ZeroDivisionError). -/
inductive ReachableDifficulty (cfg : SimulationConfig) : ℚ → Prop
  | init : ReachableDifficulty cfg cfg.difficulty
  | adjust (d avg : ℚ) (hd : ReachableDifficulty cfg d) (havg : avg ≠ 0) :
      ReachableDifficulty cfg (adjustedDifficulty cfg d avg)

lemma popFIFO_min_eq (bs : ℕ) :
    ∀ l : List Transaction, popFIFO (min bs l.length) l = (l.take bs, l.drop bs) := by
  induction bs with
  | zero => intro l; simp [popFIFO]
  | succ n ih =>
    intro l
    cases l with
    | nil => simp [popFIFO]
    | cons x xs =>
      simp only [List.length_cons, Nat.succ_min_succ, popFIFO, ih xs,
        List.take_succ_cons, List.drop_succ_cons]

lemma append_block_blocks (s : MiningState) (b : Block) :
    (s.append_block b).blocks = s.blocks ++ [b] := rfl

lemma record_miner_stats_parts (s : MiningState) (b : Block) (m : String) :
    (s.record_miner_stats b m).blocks = s.blocks ∧
    (s.record_miner_stats b m).block_reward = s.block_reward ∧
    (s.record_miner_stats b m).halving_blocks = s.halving_blocks ∧
    (s.record_miner_stats b m).current_difficulty = s.current_difficulty ∧
    (s.record_miner_stats b m).config = s.config := by
  unfold MiningState.record_miner_stats
  split <;> simp

lemma adjust_difficulty_parts (s : MiningState) :
    s.adjust_difficulty.blocks = s.blocks ∧
    s.adjust_difficulty.block_reward = s.block_reward ∧
    s.adjust_difficulty.halving_blocks = s.halving_blocks ∧
    s.adjust_difficulty.config = s.config := by
  unfold MiningState.adjust_difficulty
  split <;> simp

lemma maybe_adjust_parts (s : MiningState) :
    s.maybe_adjust_difficulty.blocks = s.blocks ∧
    s.maybe_adjust_difficulty.block_reward = s.block_reward ∧
    s.maybe_adjust_difficulty.halving_blocks = s.halving_blocks ∧
    s.maybe_adjust_difficulty.config = s.config := by
  unfold MiningState.maybe_adjust_difficulty
  split
  · exact adjust_difficulty_parts s
  · simp

lemma maybe_halve_blocks (s : MiningState) :
    s.maybe_halve_reward.blocks = s.blocks := by
  unfold MiningState.maybe_halve_reward
  cases s.halving_blocks with
  | none => rfl
  | some h => simp only; split <;> rfl

lemma maybe_halve_reward_eq (s : MiningState) :
    s.maybe_halve_reward.block_reward =
      (match s.halving_blocks with
        | none => s.block_reward
        | some h =>
          if h ≠ 0 ∧ s.blocks.length % h = 0 ∧ 0 < s.blocks.length then
            s.block_reward / 2
          else s.block_reward) := by
  unfold MiningState.maybe_halve_reward MiningState.halve_reward
  cases s.halving_blocks with
  | none => rfl
  | some h => simp only; split <;> rfl

/-- C6: the transaction pool is a strict FIFO queue: add_transaction appends
to the tail, get_transactions_for_block removes and returns up to blocksize
transactions from the head in insertion order (so exactly the first blocksize
of the pool, fewer when the pool is shorter, and nothing from an empty pool);
in particular, after enqueuing A and then B into an empty pool, dequeuing
with blocksize 1 yields A alone. -/
theorem transaction_pool_fifo (s : MiningState) (tx A B : Transaction) :
    (s.get_transactions_for_block).1 = s.transaction_pool.take s.config.blocksize ∧
    (s.get_transactions_for_block).2.transaction_pool =
      s.transaction_pool.drop s.config.blocksize ∧
    (s.add_transaction tx).transaction_pool = s.transaction_pool ++ [tx] ∧
    ({ s with transaction_pool := [] } : MiningState).get_transactions_for_block.1 = [] ∧
    (({ s with
        transaction_pool := []
        config := { s.config with blocksize := 1 } } : MiningState).add_transaction A
          |>.add_transaction B |>.get_transactions_for_block).1 = [A] := by
  refine ⟨?_, ?_, rfl, ?_, ?_⟩
  · simp [MiningState.get_transactions_for_block, popFIFO_min_eq]
  · simp [MiningState.get_transactions_for_block, popFIFO_min_eq]
  · simp [MiningState.get_transactions_for_block, popFIFO]
  · simp only [MiningState.get_transactions_for_block, MiningState.add_transaction]
    rfl

/-- C7: broadcasting a block to a node that already holds it is a no-op:
store_block returns False and leaves both the node's stored-block set and the
shared propagation statistics (data volume, I/O count, running mean) exactly
as they were. -/
theorem store_block_idempotent (node : BlockchainNode) (stats : NetworkStats)
    (b : Block) (h : b.block_id ∈ node.stored_blocks) :
    node.store_block stats b = (false, node, stats) := by
  unfold BlockchainNode.store_block
  simp [h]

/-- Witness for C7 at a concrete node that already stores the block. -/
theorem store_block_idempotent_witness :
    BlockchainNode.store_block
        { node_id := "node_0", stored_blocks := ["block_1"], neighbors := ["node_1"] }
        { total_blocks_propagated := 3, total_transactions_propagated := 0,
          total_network_data := 3072, total_io_requests := 3,
          average_propagation_time := 1/10, network_latency := 0, packet_loss_rate := 0 }
        { block_id := "block_1", timestamp := 600, time_since_last := 600,
          transaction_count := 0, size := 1024, transactions := [],
          miner_reward := 50, previous_hash := "genesis", miner_id := "miner_0",
          difficulty := 1, hash := "h1" } =
      (false,
        { node_id := "node_0", stored_blocks := ["block_1"], neighbors := ["node_1"] },
        { total_blocks_propagated := 3, total_transactions_propagated := 0,
          total_network_data := 3072, total_io_requests := 3,
          average_propagation_time := 1/10, network_latency := 0, packet_loss_rate := 0 }) :=
  store_block_idempotent _ _ _ (by decide)

/-- C10: for a wallet with non-negative balance and non-negative amount and
fee, subtract_balance either deducts exactly amount + fee, bumps the sent
counters and returns True (when the balance covers it), or returns False with
every field unchanged; the resulting balance is never negative. -/
theorem subtract_balance_safe (w : Wallet) (amount fee : ℚ)
    (hb : 0 ≤ w.balance) (_ha : 0 ≤ amount) (_hf : 0 ≤ fee) :
    (amount + fee ≤ w.balance →
      w.subtract_balance amount fee =
        (true,
          { w with
            balance := w.balance - (amount + fee)
            total_sent := w.total_sent + amount
            total_fees := w.total_fees + fee
            transactions_sent := w.transactions_sent + 1 })) ∧
    (w.balance < amount + fee → w.subtract_balance amount fee = (false, w)) ∧
    0 ≤ (w.subtract_balance amount fee).2.balance := by
  unfold Wallet.subtract_balance
  refine ⟨?_, ?_, ?_⟩
  · intro h; simp [h]
  · intro h; rw [if_neg (by linarith)]
  · by_cases h : amount + fee ≤ w.balance
    · simp [h]
    · simpa [h] using hb

/-- Witness for C10 at a concrete wallet and transfer. -/
theorem subtract_balance_safe_witness :
    Wallet.subtract_balance
        { wallet_id := "wallet_0", balance := 10, transactions_sent := 0,
          transactions_received := 0, total_sent := 0, total_received := 0,
          total_fees := 0 } 3 1 =
      (true,
        { wallet_id := "wallet_0", balance := 6, transactions_sent := 1,
          transactions_received := 0, total_sent := 3, total_received := 0,
          total_fees := 1 }) := by
  have h := (subtract_balance_safe
    { wallet_id := "wallet_0", balance := 10, transactions_sent := 0,
      transactions_received := 0, total_sent := 0, total_received := 0,
      total_fees := 0 } 3 1 (by norm_num) (by norm_num) (by norm_num)).1 (by norm_num)
  rw [h]
  norm_num

lemma validate_block_false_iff (s : MiningState) (b : Block) :
    s.validate_block b = false ↔
      b.block_id = "" ∨ b.hash = "" ∨
        s.blocks.any (fun c => c.block_id = b.block_id) = true ∨
        s.config.blocksize < b.transaction_count := by
  unfold MiningState.validate_block
  split_ifs with h1 h2 h3 <;> simp_all <;> tauto

/-- C3: submit_block returns False and leaves the whole engine state (chain,
last-block time, last-block hash, mining statistics, everything) untouched
exactly when the block fails validation — a missing (empty) block_id or hash,
a block_id already present in the chain, or a transaction count above the
configured blocksize; otherwise it returns True and the chain is the old
chain with the block appended exactly once at the end. -/
theorem submit_block_validation (s : MiningState) (b : Block) (m : String) :
    ((s.submit_block b m).1 = false ↔
      b.block_id = "" ∨ b.hash = "" ∨
        s.blocks.any (fun c => c.block_id = b.block_id) = true ∨
        s.config.blocksize < b.transaction_count) ∧
    ((s.submit_block b m).1 = false → (s.submit_block b m).2 = s) ∧
    ((s.submit_block b m).1 = true → (s.submit_block b m).2.blocks = s.blocks ++ [b]) := by
  rw [← validate_block_false_iff]
  by_cases hv : s.validate_block b
  · have hsub : s.submit_block b m =
        (true, (((s.append_block b).record_miner_stats b m).maybe_adjust_difficulty).maybe_halve_reward) := by
      simp [MiningState.submit_block, hv]
    refine ⟨by simp [hsub, hv], by simp [hsub], fun _ => ?_⟩
    rw [hsub]
    simp only
    rw [maybe_halve_blocks, (maybe_adjust_parts _).1, (record_miner_stats_parts _ _ _).1,
      append_block_blocks]
  · have hsub : s.submit_block b m = (false, s) := by
      simp [MiningState.submit_block, hv]
    refine ⟨by simp [hsub, Bool.not_eq_true] at hv ⊢; exact hv, by simp [hsub], by simp [hsub]⟩

/-- A sample configuration used to instantiate witnesses: 2 nodes, 1
neighbor, 2 miners at 1000 H/s, 600 s blocks, reward 50, halving 210000,
no workload, blocksize 4000, block target 5 (the scenario of spec section 8). -/
def sampleConfig : SimulationConfig :=
  { nodes := 2, neighbors := 1, miners := 2, hashrate := 1000, blocktime := 600,
    difficulty := 1200000, reward := 50, halving := some 210000, wallets := 0,
    transactions := 0, blocksize := 4000, blocks := some 5 }

/-- A sample first block for witness states. -/
def sampleBlock1 : Block :=
  { block_id := "block_1", timestamp := 600, time_since_last := 600,
    transaction_count := 0, size := 1024, transactions := [], miner_reward := 50,
    previous_hash := "genesis", miner_id := "miner_0", difficulty := 1200000,
    hash := "h1" }

/-- A sample successor block for witness states. -/
def sampleBlock2 : Block :=
  { block_id := "block_2", timestamp := 1200, time_since_last := 600,
    transaction_count := 0, size := 1024, transactions := [], miner_reward := 50,
    previous_hash := "h1", miner_id := "miner_0", difficulty := 1200000,
    hash := "h2" }

/-- Sample global mining statistics after one block. -/
def sampleMiningStats : MiningStats :=
  { total_blocks_mined := 1, total_mining_time := 600, average_mining_time := 600,
    current_difficulty := 1200000, total_hashrate := 0,
    blocks_per_miner := [("miner_0", 1)] }

/-- Sample miner record after one block. -/
def sampleMiner : Miner :=
  { miner_id := "miner_0", hashrate := 1000, actual_hashrate := 1000,
    blocks_mined := 1, total_mining_time := 600, running := true }

/-- A sample engine state holding one block, with a halving interval of two
blocks so a single further submission triggers the halving. -/
def sampleState : MiningState :=
  { config := sampleConfig, mining_stats := sampleMiningStats,
    miners := [sampleMiner], blocks := [sampleBlock1],
    current_difficulty := 1200000, block_reward := 50, halving_blocks := some 2,
    simulated_time := 600, last_block_time := 600, last_block_hash := "h1",
    transaction_pool := [], block_counter := 2 }

/-- Witness for C3: resubmitting the block already on the chain is rejected
and the engine state is exactly what it was. -/
theorem submit_block_validation_witness :
    (sampleState.submit_block sampleBlock1 "miner_0").2 = sampleState :=
  (submit_block_validation sampleState sampleBlock1 "miner_0").2.1 (by decide)

/-- C4: when a halving interval is configured (Python-truthy: not None and
nonzero), a successful submission halves the reward exactly when the new
chain length is a positive multiple of the interval; when halving is unset
(None) no block submission ever changes the reward. -/
theorem halving_schedule (s : MiningState) (b : Block) (m : String) :
    (s.halving_blocks = none → (s.submit_block b m).2.block_reward = s.block_reward) ∧
    (∀ h : ℕ, s.halving_blocks = some h → h ≠ 0 → (s.submit_block b m).1 = true →
      (s.submit_block b m).2.block_reward =
        if (s.blocks.length + 1) % h = 0 then s.block_reward / 2
        else s.block_reward) := by
  by_cases hv : s.validate_block b
  · have hsub : s.submit_block b m =
        (true, (((s.append_block b).record_miner_stats b m).maybe_adjust_difficulty).maybe_halve_reward) := by
      simp [MiningState.submit_block, hv]
    have h1 : (((s.append_block b).record_miner_stats b m).maybe_adjust_difficulty).halving_blocks
        = s.halving_blocks := by
      rw [(maybe_adjust_parts _).2.2.1, (record_miner_stats_parts _ _ _).2.2.1]
      rfl
    have h2 : (((s.append_block b).record_miner_stats b m).maybe_adjust_difficulty).blocks.length
        = s.blocks.length + 1 := by
      rw [(maybe_adjust_parts _).1, (record_miner_stats_parts _ _ _).1, append_block_blocks]
      simp
    have h3 : (((s.append_block b).record_miner_stats b m).maybe_adjust_difficulty).block_reward
        = s.block_reward := by
      rw [(maybe_adjust_parts _).2.1, (record_miner_stats_parts _ _ _).2.1]
      rfl
    constructor
    · intro hnone
      rw [hsub]
      simp only
      rw [maybe_halve_reward_eq, h1, hnone]
      exact h3
    · intro h hsome hne _
      rw [hsub]
      simp only
      rw [maybe_halve_reward_eq, h1, hsome]
      simp only [hne, ne_eq, not_false_iff, true_and, h2, h3, Nat.succ_pos, and_true]
  · have hsub : s.submit_block b m = (false, s) := by
      simp [MiningState.submit_block, hv]
    exact ⟨fun _ => by rw [hsub], fun h _ _ htrue => by rw [hsub] at htrue; simp at htrue⟩

/-- Witness for C4: with a halving interval of 2 and one block on the chain,
submitting a second valid block halves the reward from 50 to 25. -/
theorem halving_schedule_witness :
    (sampleState.submit_block sampleBlock2 "miner_0").2.block_reward = 25 := by
  have h := (halving_schedule sampleState sampleBlock2 "miner_0").2 2 (by decide)
    (by decide) (by decide)
  rw [h]
  norm_num [sampleState, sampleBlock1]

/-- C8: the termination check succeeds exactly when (i) a workload was
configured (wallets > 0 with a positive expected transaction total), the
pending pool is empty and at least one block has been mined, or (ii) a block
target is configured (Python-truthy) and the mined count has reached it; and
whenever the check fails at every state the loop visits, the loop never
terminates on its own. -/
theorem should_terminate_spec (s : SimulatorState) (f : SimulatorState → SimulatorState) :
    (shouldTerminate s = true ↔
      (0 < s.wallets ∧ s.pending_tx = 0 ∧ 0 < s.blocks_mined ∧
        0 < s.wallets * s.transactions) ∨
      (∃ b, s.blocks_target = some b ∧ b ≠ 0 ∧ b ≤ s.blocks_mined)) ∧
    ((∀ i, shouldTerminate (f^[i] s) = false) →
      ∀ n, loopTerminatesWithin f s n = false) := by
  constructor
  · by_cases h1 : 0 < s.wallets ∧ s.pending_tx = 0 ∧ 0 < s.blocks_mined ∧
        0 < s.wallets * s.transactions
    · simp [shouldTerminate, h1]
    · cases htarget : s.blocks_target with
      | none => simp [shouldTerminate, h1, htarget]
      | some b =>
        by_cases h2 : b ≠ 0 ∧ b ≤ s.blocks_mined
        · simp [shouldTerminate, h1, htarget, h2]
        · simp only [shouldTerminate, h1, htarget, h2, if_false]
          simp [h1, h2]
  · intro hnever n
    simp [loopTerminatesWithin, hnever]

/-- Witness for C8: with no workload and no block target configured, the
check fails and the loop (observed through an arbitrary step, here the
identity) has not terminated after eleven iterations. -/
theorem should_terminate_spec_witness :
    loopTerminatesWithin id
      { wallets := 0, transactions := 0, blocks_target := none,
        pending_tx := 5, blocks_mined := 3 } 10 = false := by
  refine (should_terminate_spec
    { wallets := 0, transactions := 0, blocks_target := none,
      pending_tx := 5, blocks_mined := 3 } id).2 (fun i => ?_) 10
  rw [Function.iterate_id]
  decide

/-- C5: for every block-utilization state of the calculator and all amount,
priority and congestion inputs, the computed fee lies within
[min_fee, max_fee]; at identical amount and congestion the fee at priority
urgent is at least the fee at priority low; and on the four documented
priority classes the fee equals the spec clamp formula with multipliers
low 0.5, normal 1.0, high 2.0, urgent 5.0. -/
theorem calculate_fee_spec (u amount congestion : ℚ) (priority : String) :
    (minFeeConfig ≤ (FeeCalculator.init u).calculate_fee amount priority congestion ∧
      (FeeCalculator.init u).calculate_fee amount priority congestion ≤ maxFeeConfig) ∧
    ((FeeCalculator.init u).calculate_fee amount "low" congestion ≤
      (FeeCalculator.init u).calculate_fee amount "urgent" congestion) ∧
    ((FeeCalculator.init u).calculate_fee amount "low" congestion =
      feeSpecFormula amount (1/2) congestion u) ∧
    ((FeeCalculator.init u).calculate_fee amount "normal" congestion =
      feeSpecFormula amount 1 congestion u) ∧
    ((FeeCalculator.init u).calculate_fee amount "high" congestion =
      feeSpecFormula amount 2 congestion u) ∧
    ((FeeCalculator.init u).calculate_fee amount "urgent" congestion =
      feeSpecFormula amount 5 congestion u) := by
  have hformula : ∀ p : String,
      (FeeCalculator.init u).calculate_fee amount p congestion =
        feeSpecFormula amount (priorityMult p) congestion u := by
    intro p
    unfold FeeCalculator.calculate_fee feeSpecFormula FeeCalculator.init
    simp only
    congr 2
    ring
  refine ⟨⟨le_max_left _ _, ?_⟩, ?_, ?_, ?_, ?_, ?_⟩
  · exact max_le (by norm_num [minFeeConfig, maxFeeConfig, FeeCalculator.init])
      (le_trans (min_le_right _ _) (by norm_num [maxFeeConfig, FeeCalculator.init]))
  · rw [hformula "low", hformula "urgent"]
    unfold feeSpecFormula priorityMult
    simp only [String.reduceEq, if_false, if_true, reduceIte]
    set t := amount * feeRateConfig * (1 + 2 * congestion) * (1 + (1/2) * u) with ht
    have hlow : amount * feeRateConfig * (1/2) * (1 + 2 * congestion) * (1 + (1/2) * u)
        = (1/2) * t := by rw [ht]; ring
    have hurg : amount * feeRateConfig * 5 * (1 + 2 * congestion) * (1 + (1/2) * u)
        = 5 * t := by rw [ht]; ring
    rw [hlow, hurg]
    rcases le_or_lt 0 t with hpos | hneg
    · exact max_le_max le_rfl (min_le_min (by linarith) le_rfl)
    · have h₁ : max minFeeConfig (min ((1/2) * t) maxFeeConfig) = minFeeConfig := by
        apply max_eq_left
        apply le_trans (min_le_left _ _)
        norm_num [minFeeConfig]
        linarith
      have h₂ : minFeeConfig ≤ max minFeeConfig (min (5 * t) maxFeeConfig) :=
        le_max_left _ _
      rw [h₁]
      exact h₂
  · rw [hformula "low"]; norm_num [priorityMult]
  · rw [hformula "normal"]; simp [priorityMult]
  · rw [hformula "high"]; simp [priorityMult]
  · rw [hformula "urgent"]; simp [priorityMult]

lemma lookupWallet_cons (p : String × Wallet) (ws : List (String × Wallet))
    (k : String) :
    lookupWallet (p :: ws) k = if p.1 = k then some p.2 else lookupWallet ws k := by
  by_cases h : p.1 = k <;> simp [lookupWallet, List.find?_cons, h]

lemma updateWallet_cons (p : String × Wallet) (ws : List (String × Wallet))
    (k : String) (f : Wallet → Wallet) :
    updateWallet (p :: ws) k f =
      (if p.1 = k then (p.1, f p.2) else p) :: updateWallet ws k f := rfl

lemma lookupWallet_updateWallet_self (k : String) (f : Wallet → Wallet) :
    ∀ ws : List (String × Wallet),
      lookupWallet (updateWallet ws k f) k = (lookupWallet ws k).map f := by
  intro ws
  induction ws with
  | nil => rfl
  | cons p ws ih =>
    rw [updateWallet_cons, lookupWallet_cons, lookupWallet_cons]
    by_cases hp : p.1 = k
    · simp [hp]
    · simp [hp, ih]

lemma lookupWallet_updateWallet_ne (k k' : String) (f : Wallet → Wallet)
    (hne : k' ≠ k) :
    ∀ ws : List (String × Wallet),
      lookupWallet (updateWallet ws k f) k' = lookupWallet ws k' := by
  intro ws
  induction ws with
  | nil => rfl
  | cons p ws ih =>
    rw [updateWallet_cons, lookupWallet_cons, lookupWallet_cons]
    by_cases hp : p.1 = k
    · have hpk' : ¬ p.1 = k' := fun h => hne (h.symm.trans hp)
      simp [hp, hpk', Ne.symm hne, ih]
    · by_cases hp' : p.1 = k'
      · simp [hp, hp', hne]
      · simp [hp, hp', ih]

/-- The wallet dict of the C9 counterexample: the single workload wallet. -/
def selfWalletDict : List (String × Wallet) :=
  [("wallet_0",
    { wallet_id := "wallet_0", balance := 0, transactions_sent := 0,
      transactions_received := 0, total_sent := 0, total_received := 0,
      total_fees := 0 })]

/-- The C9 counterexample transaction: with a single-wallet workload the
generator produces recipient = (sender index + 1) mod 1 = sender, a
self-transaction. -/
def selfTransaction : Transaction :=
  { tx_id := "tx_0", sender := "wallet_0", recipient := "wallet_0", amount := 1,
    fee := 1/100, timestamp := 0, status := "pending", priority := "normal",
    network_congestion := 0 }

/-- Counterexample to C9 as stated: for the self-transaction (sender equals
recipient, the recipient wallet exists), processing the confirmed transaction
does change the sender's wallet, contradicting the claim that the sender's
wallet is always left completely unchanged. -/
theorem process_confirmed_self_counterexample :
    selfTransaction.sender = "wallet_0" ∧
    selfTransaction.recipient = "wallet_0" ∧
    (lookupWallet selfWalletDict "wallet_0").isSome = true ∧
    lookupWallet (process_confirmed_transaction selfWalletDict selfTransaction).1
        selfTransaction.sender ≠ lookupWallet selfWalletDict selfTransaction.sender := by
  refine ⟨rfl, rfl, rfl, ?_⟩
  simp only [process_confirmed_transaction, selfWalletDict, selfTransaction,
    lookupWallet, updateWallet, Wallet.add_balance, List.map_cons, List.map_nil,
    List.find?_cons]
  norm_num

/-- C9 amended: for every confirmed transaction whose recipient wallet
exists, processing credits exactly tx.amount to the recipient's balance and
total_received and bumps its received-transaction counter, and marks the
transaction confirmed; and whenever the sender differs from the recipient,
the sender's wallet entry (balance and all counters, or its absence) is left
completely unchanged. -/
theorem process_confirmed_transaction_spec (ws : List (String × Wallet))
    (tx : Transaction) (wr : Wallet)
    (hr : lookupWallet ws tx.recipient = some wr) :
    lookupWallet (process_confirmed_transaction ws tx).1 tx.recipient =
      some { wr with
        balance := wr.balance + tx.amount
        total_received := wr.total_received + tx.amount
        transactions_received := wr.transactions_received + 1 } ∧
    (process_confirmed_transaction ws tx).2 = { tx with status := "confirmed" } ∧
    (tx.sender ≠ tx.recipient →
      lookupWallet (process_confirmed_transaction ws tx).1 tx.sender =
        lookupWallet ws tx.sender) := by
  have hsome : (lookupWallet ws tx.recipient).isSome := by rw [hr]; rfl
  refine ⟨?_, rfl, fun hne => ?_⟩
  · simp only [process_confirmed_transaction, hsome, if_true]
    rw [lookupWallet_updateWallet_self, hr]
    rfl
  · simp only [process_confirmed_transaction, hsome, if_true]
    rw [lookupWallet_updateWallet_ne _ _ _ hne]

/-- Witness for the amended C9 at a concrete two-wallet ledger: the recipient
is credited exactly the amount and the distinct sender's entry is unchanged. -/
theorem process_confirmed_transaction_spec_witness :
    lookupWallet
        (process_confirmed_transaction
          [("wallet_0",
            { wallet_id := "wallet_0", balance := 5, transactions_sent := 0,
              transactions_received := 0, total_sent := 0, total_received := 0,
              total_fees := 0 }),
           ("wallet_1",
            { wallet_id := "wallet_1", balance := 0, transactions_sent := 0,
              transactions_received := 0, total_sent := 0, total_received := 0,
              total_fees := 0 })]
          { tx_id := "tx_1", sender := "wallet_0", recipient := "wallet_1",
            amount := 2, fee := 1/100, timestamp := 0, status := "pending",
            priority := "normal", network_congestion := 0 }).1 "wallet_1" =
      some
        { wallet_id := "wallet_1", balance := 2, transactions_sent := 0,
          transactions_received := 1, total_sent := 0, total_received := 2,
          total_fees := 0 } ∧
    lookupWallet
        (process_confirmed_transaction
          [("wallet_0",
            { wallet_id := "wallet_0", balance := 5, transactions_sent := 0,
              transactions_received := 0, total_sent := 0, total_received := 0,
              total_fees := 0 }),
           ("wallet_1",
            { wallet_id := "wallet_1", balance := 0, transactions_sent := 0,
              transactions_received := 0, total_sent := 0, total_received := 0,
              total_fees := 0 })]
          { tx_id := "tx_1", sender := "wallet_0", recipient := "wallet_1",
            amount := 2, fee := 1/100, timestamp := 0, status := "pending",
            priority := "normal", network_congestion := 0 }).1 "wallet_0" =
      some
        { wallet_id := "wallet_0", balance := 5, transactions_sent := 0,
          transactions_received := 0, total_sent := 0, total_received := 0,
          total_fees := 0 } := by
  have h := process_confirmed_transaction_spec
    [("wallet_0",
      { wallet_id := "wallet_0", balance := 5, transactions_sent := 0,
        transactions_received := 0, total_sent := 0, total_received := 0,
        total_fees := 0 }),
     ("wallet_1",
      { wallet_id := "wallet_1", balance := 0, transactions_sent := 0,
        transactions_received := 0, total_sent := 0, total_received := 0,
        total_fees := 0 })]
    { tx_id := "tx_1", sender := "wallet_0", recipient := "wallet_1",
      amount := 2, fee := 1/100, timestamp := 0, status := "pending",
      priority := "normal", network_congestion := 0 }
    { wallet_id := "wallet_1", balance := 0, transactions_sent := 0,
      transactions_received := 0, total_sent := 0, total_received := 0,
      total_fees := 0 }
    (by decide)
  constructor
  · rw [h.1]
    norm_num
  · rw [h.2.2 (by decide)]
    decide

/-- C2 amended: after any difficulty adjustment the new difficulty lies
within [0.1x, 5.0x] of the (positive) baseline blocktime x miners x hashrate
unconditionally; and the single-step change ratio lies within [1/1.5, 1.5]
provided the pre-adjustment difficulty itself already lies in that band —
which holds from the second adjustment on, and from the first when the
configured initial difficulty is in the band (in particular at the default
initial difficulty, the baseline itself). -/
theorem difficulty_adjustment_bounds (cfg : SimulationConfig) (d avg : ℚ)
    (hbase : 0 < cfg.blocktime * (cfg.miners : ℚ) * cfg.hashrate) :
    (cfg.blocktime * (cfg.miners : ℚ) * cfg.hashrate * (1/10) ≤
        adjustedDifficulty cfg d avg ∧
      adjustedDifficulty cfg d avg ≤
        cfg.blocktime * (cfg.miners : ℚ) * cfg.hashrate * 5) ∧
    (0 < d →
      cfg.blocktime * (cfg.miners : ℚ) * cfg.hashrate * (1/10) ≤ d →
      d ≤ cfg.blocktime * (cfg.miners : ℚ) * cfg.hashrate * 5 →
      (2/3) * d ≤ adjustedDifficulty cfg d avg ∧
        adjustedDifficulty cfg d avg ≤ (3/2) * d) := by
  set B := cfg.blocktime * (cfg.miners : ℚ) * cfg.hashrate with hB
  set c := max (67/100) (min (3/2) (cfg.blocktime / avg)) with hc
  have hc1 : (67/100 : ℚ) ≤ c := le_max_left _ _
  have hc2 : c ≤ 3/2 := max_le (by norm_num) (min_le_left _ _)
  have hadj : adjustedDifficulty cfg d avg = max (B * (1/10)) (min (B * 5) (d * c)) := rfl
  constructor
  · exact ⟨hadj ▸ le_max_left _ _, hadj ▸ max_le (by nlinarith) (min_le_left _ _)⟩
  · intro hd hlo hhi
    rw [hadj]
    rcases le_total (d * c) (B * (1/10)) with h1 | h1
    · have h5 : d * c ≤ B * 5 := le_trans h1 (by nlinarith)
      rw [min_eq_right h5, max_eq_left h1]
      constructor
      · nlinarith
      · nlinarith
    · rcases le_total (d * c) (B * 5) with h2 | h2
      · rw [min_eq_right h2, max_eq_right h1]
        constructor
        · nlinarith
        · nlinarith
      · rw [min_eq_left h2, max_eq_right (by nlinarith : B * (1/10) ≤ B * 5)]
        constructor
        · nlinarith
        · nlinarith

/-- The default configuration of config.py DEFAULT_CONFIG with its documented
default difficulty blocktime * miners * hashrate = 600 * 5 * 1000. -/
def defaultBaselineConfig : SimulationConfig :=
  { nodes := 10, neighbors := 3, miners := 5, hashrate := 1000, blocktime := 600,
    difficulty := 3000000, reward := 50, halving := some 210000, wallets := 0,
    transactions := 0, blocksize := 4000, blocks := none }

/-- Witness for the amended C2: at the default baseline difficulty and an
on-target window mean, the adjusted difficulty stays within a factor 1.5 of
its predecessor. -/
theorem difficulty_adjustment_bounds_witness :
    (2/3) * 3000000 ≤ adjustedDifficulty defaultBaselineConfig 3000000 600 ∧
    adjustedDifficulty defaultBaselineConfig 3000000 600 ≤ (3/2) * 3000000 :=
  (difficulty_adjustment_bounds defaultBaselineConfig 3000000 600
      (by norm_num [defaultBaselineConfig])).2
    (by norm_num) (by norm_num [defaultBaselineConfig])
    (by norm_num [defaultBaselineConfig])

/-- The default configuration of config.py with the difficulty overridden on
the command line to 1, far below 0.1x the baseline of 3,000,000 (the
SimulationConfig contract accepts any configured difficulty). -/
def lowDifficultyConfig : SimulationConfig :=
  { nodes := 10, neighbors := 3, miners := 5, hashrate := 1000, blocktime := 600,
    difficulty := 1, reward := 50, halving := some 210000, wallets := 0,
    transactions := 0, blocksize := 4000, blocks := none }

/-- Counterexample to C2 as stated: difficulty 1 is reachable (it is the
configured initial difficulty, held through the first 2015 submissions), and
the first adjustment with an exactly on-target window mean of 600 s clamps
the difficulty up to 0.1x baseline = 300,000 — a single-step change ratio of
300,000, far above the claimed bound of 1.5. -/
theorem difficulty_adjustment_step_counterexample :
    ReachableDifficulty lowDifficultyConfig 1 ∧
    adjustedDifficulty lowDifficultyConfig 1 600 = 300000 ∧
    ¬ adjustedDifficulty lowDifficultyConfig 1 600 ≤ (3/2) * 1 := by
  have hval : adjustedDifficulty lowDifficultyConfig 1 600 = 300000 := by
    norm_num [adjustedDifficulty, lowDifficultyConfig, min_def, max_def]
  refine ⟨ReachableDifficulty.init, hval, ?_⟩
  rw [hval]
  norm_num

/-- The failing network for C1: two nodes, each the other's (only) neighbor,
no blocks stored, fresh shared statistics — every node is reachable from
either choice of origin. -/
def twoNodeNet : NetworkState :=
  { nodes :=
      [{ node_id := "node_0", stored_blocks := [], neighbors := ["node_1"] },
       { node_id := "node_1", stored_blocks := [], neighbors := ["node_0"] }],
    network_stats :=
      { total_blocks_propagated := 0, total_transactions_propagated := 0,
        total_network_data := 0, total_io_requests := 0,
        average_propagation_time := 0, network_latency := 0,
        packet_loss_rate := 0 } }

/-- C1 (divergence of the source from the claim): on the two-node network,
whichever node the random choice picks as origin, broadcast_block leaves the
other node — a direct neighbor, reachable from the origin — without the
block: store_block only records the block at the origin and updates the
propagation statistics per neighbor; _broadcast_block never delivers the
block to a neighbor (_receive_block is never invoked), so the claimed
recursive flood does not happen. -/
theorem broadcast_block_not_delivered :
    ((twoNodeNet.nodes.find? (fun n => n.node_id = "node_0")).map
        BlockchainNode.neighbors = some ["node_1"]) ∧
    ((twoNodeNet.broadcast_block "node_0" sampleBlock1).nodes.find?
        (fun n => n.node_id = "node_0")).map BlockchainNode.stored_blocks =
      some ["block_1"] ∧
    ((twoNodeNet.broadcast_block "node_0" sampleBlock1).nodes.find?
        (fun n => n.node_id = "node_1")).map BlockchainNode.stored_blocks =
      some [] ∧
    ((twoNodeNet.broadcast_block "node_1" sampleBlock1).nodes.find?
        (fun n => n.node_id = "node_0")).map BlockchainNode.stored_blocks =
      some [] := by
  refine ⟨rfl, ?_, ?_, ?_⟩ <;>
    simp [NetworkState.broadcast_block, twoNodeNet, sampleBlock1,
      BlockchainNode.store_block, List.find?_cons]
